import Mathlib

/-!
Shallow embedding of the ssmcp core (src/lib.mjs): a protocol translation
layer turning a stateless HTTP capability protocol (manifest + flat
tool/prompt/resource listings) into MCP-shaped request handlers.

JavaScript dynamic values are modelled by the `JVal` inductive (JSON values);
`Option JVal` models a possibly-`undefined` value.  Fallible code returns
`Except Err`.  Each network-touching operation returns the list of HTTP
requests it issued alongside its result, so that properties about which
requests are sent (URLs, headers, how many) are directly statable.
-/

namespace SSMCP

/-- JSON values, the model of dynamically typed JavaScript data. -/
inductive JVal where
  | jnull
  | jbool (b : Bool)
  | jnum (n : Int)
  | jstr (s : String)
  | jarr (elems : List JVal)
  | jobj (fields : List (String × JVal))
deriving Repr

/-- JavaScript truthiness of a value. -/
def jsTruthy : JVal → Bool
  | .jnull => false
  | .jbool b => b
  | .jnum n => n != 0
  | .jstr s => !(s == "")
  | .jarr _ => true
  | .jobj _ => true

/-- JavaScript truthiness of a possibly-undefined value. -/
def jsTruthyOpt : Option JVal → Bool
  | none => false
  | some v => jsTruthy v

/-- `v == null || v == undefined`: the values short-circuited by `??`. -/
def jsNullish : Option JVal → Bool
  | none => true
  | some .jnull => true
  | some _ => false

/-- First field with the given key in an object's field list (JS objects
have unique keys, so first occurrence is the JS semantics). -/
def lookupField : List (String × JVal) → String → Option JVal
  | [], _ => none
  | (k, v) :: rest, key => if k = key then some v else lookupField rest key

/-- Property read `v[key]` on a value known not to be `null`/`undefined`
at the use site; on non-objects it yields `undefined` (none). -/
def jsMemberSafe : JVal → String → Option JVal
  | .jobj fields, key => lookupField fields key
  | _, _ => none

/-- Errors thrown by the library (`throw new Error(...)` in src/lib.mjs),
with the data that the source interpolates into the message. -/
inductive Err where
  | unauthorized
  | forbidden
  | unknownTool (name : String)
  | unknownPrompt (name : String)
  | unknownResource (uri : String)
  | manifestFetchFailed (status : Nat) (statusText : String)
  | sectionFetchFailed (sectionName : String) (status : Nat) (statusText : String)
  | promptFetchFailed (name : String) (status : Nat) (statusText : String)
  | resourceFetchFailed (uri : String) (status : Nat) (statusText : String)
  | unsupportedContentType (contentType : String)
  | unsupportedPromptContentType (contentType : String)
  | typeError
  | jsonError (msg : String)
  | fetchThrew (msg : String)
deriving Repr, DecidableEq

/-- Property read `v.key`: throws a TypeError when `v` is `null`. -/
def jsMemberE : JVal → String → Except Err (Option JVal)
  | .jnull, _ => .error .typeError
  | .jobj fields, key => .ok (lookupField fields key)
  | _, _ => .ok none

/-- Overwrite-or-append assignment `obj[key] = v` on an object's field
list: an existing key keeps its position, a new key is appended. -/
def setFieldInList : List (String × JVal) → String → JVal → List (String × JVal)
  | [], key, v => [(key, v)]
  | (k, w) :: rest, key, v =>
    if k = key then (k, v) :: rest else (k, w) :: setFieldInList rest key v

/-- Property write `v.key = x`; a no-op on non-objects (unreachable in
the library, kept total). -/
def jsSetField : JVal → String → JVal → JVal
  | .jobj fields, key, v => .jobj (setFieldInList fields key v)
  | other, _, _ => other

/-- Does `hay` start with `needle` (on character lists)? -/
def leadsWith : List Char → List Char → Bool
  | [], _ => true
  | _ :: _, [] => false
  | c :: cs, d :: ds => c == d && leadsWith cs ds

/-- Substring containment on character lists. -/
def strIncludesList (needle : List Char) : List Char → Bool
  | [] => needle.isEmpty
  | c :: cs => leadsWith needle (c :: cs) || strIncludesList needle cs

/-- `String.prototype.includes`: substring containment (case-sensitive). -/
def strIncludes (hay needle : String) : Bool :=
  strIncludesList needle.data hay.data

/--
`combineURLs(baseURL, relativeURL)` (src/lib.mjs line 110): if the relative
URL is empty (falsy) return the base unchanged, else strip all trailing
slashes from the base and all leading slashes from the relative part and
join with exactly one `/`.
-/
def stripTrailingSlashes (s : String) : String :=
  ⟨(s.data.reverse.dropWhile (· == '/')).reverse⟩

def stripLeadingSlashes (s : String) : String :=
  ⟨s.data.dropWhile (· == '/')⟩

def combineURLs (baseURL relativeURL : String) : String :=
  if relativeURL = "" then baseURL
  else stripTrailingSlashes baseURL ++ "/" ++ stripLeadingSlashes relativeURL

/-- One hexadecimal digit, uppercase. -/
def hexDigitU (n : Nat) : Char :=
  "0123456789ABCDEF".data.getD n '0'

/-- UTF-8 bytes of a Unicode code point. -/
def utf8Bytes (n : Nat) : List Nat :=
  if n < 0x80 then [n]
  else if n < 0x800 then [0xC0 + n / 64, 0x80 + n % 64]
  else if n < 0x10000 then [0xE0 + n / 4096, 0x80 + (n / 64) % 64, 0x80 + n % 64]
  else [0xF0 + n / 262144, 0x80 + (n / 4096) % 64, 0x80 + (n / 64) % 64, 0x80 + n % 64]

/-- Percent-encoding of one byte, e.g. `%3A`. -/
def percentByte (b : Nat) : String :=
  "%" ++ String.singleton (hexDigitU (b / 16)) ++ String.singleton (hexDigitU (b % 16))

/-- `application/x-www-form-urlencoded` serialization of one character, as
`URLSearchParams.toString()` does: alphanumerics and `*-._` unchanged,
space becomes `+`, everything else percent-encoded byte-wise. -/
def formEncodeChar (c : Char) : String :=
  if c = ' ' then "+"
  else if c.isAlphanum || c = '*' || c = '-' || c = '.' || c = '_' then String.singleton c
  else String.join ((utf8Bytes c.toNat).map percentByte)

def formEncodeStr (s : String) : String :=
  String.join (s.data.map formEncodeChar)

/-- `URLSearchParams.toString()`: `k=v` pairs joined by `&`, each side
form-urlencoded. -/
def formUrlEncode (pairs : List (String × String)) : String :=
  String.intercalate "&" (pairs.map (fun p => formEncodeStr p.1 ++ "=" ++ formEncodeStr p.2))

/-- Escaping of one character inside a JSON string literal. -/
def jsonEscapeChar (c : Char) : String :=
  if c = '"' then "\\\""
  else if c = '\\' then "\\\\"
  else if c = '\n' then "\\n"
  else if c = '\t' then "\\t"
  else if c = '\r' then "\\r"
  else if c.toNat = 8 then "\\b"
  else if c.toNat = 12 then "\\f"
  else if c.toNat < 32 then
    "\\u00" ++ String.singleton (hexDigitU (c.toNat / 16)) ++ String.singleton (hexDigitU (c.toNat % 16))
  else String.singleton c

def jsonQuote (s : String) : String :=
  "\"" ++ String.join (s.data.map jsonEscapeChar) ++ "\""

mutual

/-- `JSON.stringify` on a JSON value. -/
def jsonStringify : JVal → String
  | .jnull => "null"
  | .jbool b => if b then "true" else "false"
  | .jnum n => toString n
  | .jstr s => jsonQuote s
  | .jarr xs => "[" ++ jsonStringifyElems xs ++ "]"
  | .jobj fs => "\x7b" ++ jsonStringifyFields fs ++ "\x7d"

def jsonStringifyElems : List JVal → String
  | [] => ""
  | [x] => jsonStringify x
  | x :: y :: xs => jsonStringify x ++ "," ++ jsonStringifyElems (y :: xs)

def jsonStringifyFields : List (String × JVal) → String
  | [] => ""
  | [(k, v)] => jsonQuote k ++ ":" ++ jsonStringify v
  | (k, v) :: f :: fs => jsonQuote k ++ ":" ++ jsonStringify v ++ "," ++ jsonStringifyFields (f :: fs)

end

mutual

/-- JavaScript `String(v)` coercion: `null`, booleans and numbers print
their literal form, strings pass through, arrays join their elements with
`,` (with `null` elements printing as empty), objects print
`[object Object]`. -/
def jsToString : JVal → String
  | .jnull => "null"
  | .jbool b => if b then "true" else "false"
  | .jnum n => toString n
  | .jstr s => s
  | .jarr xs => jsToStringElems xs
  | .jobj _ => "[object Object]"

def jsToStringElems : List JVal → String
  | [] => ""
  | [.jnull] => ""
  | [x] => jsToString x
  | .jnull :: y :: xs => "," ++ jsToStringElems (y :: xs)
  | x :: y :: xs => jsToString x ++ "," ++ jsToStringElems (y :: xs)

end

/-- Standard base64 alphabet. -/
def base64Chars : List Char :=
  "ABCDEFGHIJKLMNOPQRSTUVWXYZabcdefghijklmnopqrstuvwxyz0123456789+/".data

def b64c (i : Nat) : String :=
  String.singleton (base64Chars.getD i 'A')

/-- `Buffer.toString("base64")`: standard base64 with `=` padding. -/
def base64Encode : List Nat → String
  | [] => ""
  | [a] => b64c (a / 4) ++ b64c (a % 4 * 16) ++ "=="
  | [a, b] => b64c (a / 4) ++ b64c (a % 4 * 16 + b / 16) ++ b64c (b % 16 * 4) ++ "="
  | a :: b :: c :: rest =>
    b64c (a / 4) ++ b64c (a % 4 * 16 + b / 16) ++ b64c (b % 16 * 4 + c / 64) ++ b64c (c % 64)
      ++ base64Encode rest

/-- Header records (`Record<string, string>`). -/
abbrev Headers := List (String × String)

/--
The HTTP response boundary (the injected collaborator's `Response`):
status, status text, the `Content-Type` header (`none` when the header is
absent), and the three lazy body accessors.  `jsonBody` is `Except` because
`res.json()` rejects when the body is not valid JSON.  As in the Fetch
standard (and the repository's test mock), `ok` is derived: it holds
exactly when the status is in the 2xx range.
-/
structure Response where
  status : Nat
  statusText : String
  contentType : Option String
  textBody : String
  jsonBody : Except String JVal
  bytesBody : List Nat

def Response.ok (r : Response) : Bool :=
  decide (200 ≤ r.status) && decide (r.status < 300)

/-- One HTTP request as issued through the collaborator. -/
inductive Request where
  | get (url : String) (headers : Option Headers)
  | post (url : String) (body : JVal) (headers : Option Headers)
deriving Repr

/-- The injected HTTP collaborator.  A call either returns a `Response`
or throws (models network failure / promise rejection). -/
structure HttpClient where
  getUrl : String → Option Headers → Except String Response
  postUrl : String → JVal → Option Headers → Except String Response

/-- `makeTextContent(text)` (src/lib.mjs line 120). -/
def makeTextContent (text : String) : JVal :=
  .jobj [("content", .jarr [.jobj [("type", .jstr "text"), ("text", .jstr text)]])]

/-- `handleHttpError(res)` (src/lib.mjs line 127): throw on 401/403,
otherwise do nothing. -/
def handleHttpError (res : Response) : Except Err Unit :=
  if res.status = 401 then .error .unauthorized
  else if res.status = 403 then .error .forbidden
  else .ok ()

/-- `isTextContent(contentType)` (src/lib.mjs line 137). -/
def isTextContent (contentType : String) : Bool :=
  strIncludes contentType "text/" || strIncludes contentType "application/json"
    || strIncludes contentType "application/xml"

/--
`toMCPContent(res)` (src/lib.mjs line 142): `Content-Type` driven
transcoding of a response into an MCP tool/prompt content result, a
first-match-wins cascade: `text/plain` substring, then `application/json`
substring (array is wrapped as `content`, non-null object passes through
verbatim, a string primitive passes through as text, any other primitive
is JSON-stringified into text), then an `image/` prefix, otherwise an
`UnsupportedContentType` failure.
-/
def toMCPContent (res : Response) : Except Err JVal :=
  let contentType := res.contentType.getD ""
  if strIncludes contentType "text/plain" then
    .ok (makeTextContent res.textBody)
  else if strIncludes contentType "application/json" then
    match res.jsonBody with
    | .error e => .error (.jsonError e)
    | .ok json =>
      match json with
      | .jarr elems => .ok (.jobj [("content", .jarr elems)])
      | .jobj fields => .ok (.jobj fields)
      | .jstr s => .ok (makeTextContent s)
      | other => .ok (makeTextContent (jsonStringify other))
  else if contentType.startsWith "image/" then
    .ok (.jobj [("content", .jarr [.jobj
      [("type", .jstr "image"), ("mimeType", .jstr contentType),
       ("data", .jstr (base64Encode res.bytesBody))]])])
  else
    .error (.unsupportedContentType contentType)

/--
`toMCPResourceContent(res, uri)` (src/lib.mjs line 181): text-like content
types carry the decoded text, anything else carries base64 bytes with the
content type (or `application/octet-stream` when the header was empty or
absent).
-/
def toMCPResourceContent (res : Response) (uri : String) : JVal :=
  let contentType := res.contentType.getD ""
  if isTextContent contentType then
    .jobj [("uri", .jstr uri), ("mimeType", .jstr contentType), ("text", .jstr res.textBody)]
  else
    .jobj [("uri", .jstr uri),
      ("mimeType", .jstr (if contentType = "" then "application/octet-stream" else contentType)),
      ("blob", .jstr (base64Encode res.bytesBody))]

/-- The caller-supplied configuration `{baseUrl, headers?}`. -/
structure ServerConfig where
  baseUrl : String
  headers : Option Headers
deriving Repr

/--
The server state object.  JavaScript states are plain objects; this
structure carries every property any part of the library reads or writes.
`initializeServerState` returns `{config, manifest, ...sections}` — note
that it populates `config` (a nested object) and the section fields, while
the dispatchers read the top-level `headers` property, which
`initializeServerState` never sets.  Section data fields hold whatever
JSON the section fetch returned (`none` models an absent property /
`undefined`).
-/
structure ServerState where
  config : Option ServerConfig := none
  baseUrl : Option String := none
  headers : Option Headers := none
  manifest : Option JVal := none
  tools : Option JVal := none
  toolsUrl : Option String := none
  prompts : Option JVal := none
  promptsUrl : Option String := none
  resources : Option JVal := none
  resourcesUrl : Option String := none
  resourceTemplates : Option JVal := none
  resourceTemplatesUrl : Option String := none

/-- The relative path a manifest section value selects (src/lib.mjs lines
215–220): a string value is used verbatim; otherwise the default path is
the section name, except `resourceTemplates` whose default is the
snake-cased `resource_templates`. -/
def sectionPath (sectionName : String) : Option JVal → String
  | some (.jstr s) => s
  | _ => if sectionName = "resourceTemplates" then "resource_templates" else sectionName

/--
`fetchManifestSection(httpClient, baseUrl, headers, sectionName,
manifestValue)` (src/lib.mjs line 206): a falsy manifest value contributes
nothing and issues no request; otherwise GET the resolved section URL,
fail with `SectionFetchFailed` on a non-2xx status (or propagate a thrown
fetch / JSON parse failure), and on success contribute the parsed JSON
body together with the section URL.
-/
def fetchManifestSection (client : HttpClient) (baseUrl : String) (headers : Option Headers)
    (sectionName : String) (manifestValue : Option JVal) :
    List Request × Except Err (Option (JVal × String)) :=
  if jsTruthyOpt manifestValue = false then ([], .ok none)
  else
    let url := combineURLs baseUrl (sectionPath sectionName manifestValue)
    let req := Request.get url headers
    match client.getUrl url headers with
    | .error e => ([req], .error (.fetchThrew e))
    | .ok res =>
      if res.ok = false then
        ([req], .error (.sectionFetchFailed sectionName res.status res.statusText))
      else
        match res.jsonBody with
        | .error e => ([req], .error (.jsonError e))
        | .ok j => ([req], .ok (some (j, url)))

/--
`initializeServerState(httpClient, config)` (src/lib.mjs line 243): GET the
base URL with the configured headers, fail with `ManifestFetchFailed` on a
non-2xx status, parse the manifest, fetch the four capability sections
(`Promise.all`: all are issued; the first rejection in creation order is
what a deterministic collaborator makes `Promise.all` settle with), and on
full success assemble `{config, manifest}` plus each section's data/URL
contribution.
-/
def initializeServerState (client : HttpClient) (config : ServerConfig) :
    List Request × Except Err ServerState :=
  let mreq := Request.get config.baseUrl config.headers
  match client.getUrl config.baseUrl config.headers with
  | .error e => ([mreq], .error (.fetchThrew e))
  | .ok manifestRes =>
    if manifestRes.ok = false then
      ([mreq], .error (.manifestFetchFailed manifestRes.status manifestRes.statusText))
    else
      match manifestRes.jsonBody with
      | .error e => ([mreq], .error (.jsonError e))
      | .ok manifest =>
        match jsMemberE manifest "tools", jsMemberE manifest "prompts",
            jsMemberE manifest "resources", jsMemberE manifest "resourceTemplates" with
        | .ok vt, .ok vp, .ok vr, .ok vrt =>
          let pr1 := fetchManifestSection client config.baseUrl config.headers "tools" vt
          let pr2 := fetchManifestSection client config.baseUrl config.headers "prompts" vp
          let pr3 := fetchManifestSection client config.baseUrl config.headers "resources" vr
          let pr4 :=
            fetchManifestSection client config.baseUrl config.headers "resourceTemplates" vrt
          let trace := mreq :: (pr1.fst ++ pr2.fst ++ pr3.fst ++ pr4.fst)
          match pr1.snd, pr2.snd, pr3.snd, pr4.snd with
          | .ok s1, .ok s2, .ok s3, .ok s4 =>
            (trace, .ok
              { config := some config
                manifest := some manifest
                tools := s1.map Prod.fst
                toolsUrl := s1.map Prod.snd
                prompts := s2.map Prod.fst
                promptsUrl := s2.map Prod.snd
                resources := s3.map Prod.fst
                resourcesUrl := s3.map Prod.snd
                resourceTemplates := s4.map Prod.fst
                resourceTemplatesUrl := s4.map Prod.snd })
          | .error e, _, _, _ => (trace, .error e)
          | _, .error e, _, _ => (trace, .error e)
          | _, _, .error e, _ => (trace, .error e)
          | _, _, _, .error e => (trace, .error e)
        | .error e, _, _, _ => ([mreq], .error e)
        | _, .error e, _, _ => ([mreq], .error e)
        | _, _, .error e, _ => ([mreq], .error e)
        | _, _, _, .error e => ([mreq], .error e)

/-- `items.find((x) => x[key] === target)` for a string `target`: strict
equality holds only for an equal string; a `null` element makes the
property read throw. -/
def jsFindByField : List JVal → String → String → Except Err (Option JVal)
  | [], _, _ => .ok none
  | x :: xs, key, target =>
    match jsMemberE x key with
    | .error e => .error e
    | .ok (some (.jstr s)) =>
      if s = target then .ok (some x) else jsFindByField xs key target
    | .ok _ => jsFindByField xs key target

/-- `combineURLs(base, rel)` where the base came from an optional state
property and the relative part is a dynamic value: a string relative part
resolves normally, a falsy one returns the base unchanged, a truthy
non-string (or an `undefined` base) throws a TypeError (`.replace` on a
value that lacks it). -/
def combineURLsDynBase : Option String → Option JVal → Except Err String
  | some base, some (.jstr s) => .ok (combineURLs base s)
  | some base, v => if jsTruthyOpt v then .error .typeError else .ok base
  | none, _ => .error .typeError

/--
`mcpCallTool(httpClient, state, toolName, toolArguments)` (src/lib.mjs
line 348): exact-name lookup in `state.tools` (absent section: property
access on `undefined` throws), `UnknownTool` on a miss with no request
issued; resolve `toolsUrl` + (`href ?? name`), POST the arguments with
`state.headers`, map 401/403, transcode through `toMCPContent`, and tag
`isError` when the status was not 2xx.
-/
def mcpCallTool (client : HttpClient) (state : ServerState) (toolName : String)
    (toolArguments : JVal) : List Request × Except Err JVal :=
  match state.tools with
  | none => ([], .error .typeError)
  | some (.jarr items) =>
    match jsFindByField items "name" toolName with
    | .error e => ([], .error e)
    | .ok none => ([], .error (.unknownTool toolName))
    | .ok (some tool) =>
      match jsMemberE tool "href" with
      | .error e => ([], .error e)
      | .ok hrefV =>
        match (if jsNullish hrefV then jsMemberE tool "name" else .ok hrefV) with
        | .error e => ([], .error e)
        | .ok toolPathV =>
          match combineURLsDynBase state.toolsUrl toolPathV with
          | .error e => ([], .error e)
          | .ok resolvedToolUrl =>
            ([Request.post resolvedToolUrl toolArguments state.headers],
              match client.postUrl resolvedToolUrl toolArguments state.headers with
              | .error e => .error (.fetchThrew e)
              | .ok res =>
                match handleHttpError res with
                | .error e => .error e
                | .ok _ =>
                  match toMCPContent res with
                  | .error e => .error e
                  | .ok content =>
                    .ok (if res.ok then content
                         else jsSetField content "isError" (.jbool true)))
  | some _ => ([], .error .typeError)

/-- `Object.entries(v)`: an object's fields in insertion order, an array's
elements keyed by stringified index, nothing for other values reaching
this use (primitives are excluded by the `typeof` guard at the call
site). -/
def jsEntries : JVal → List (String × JVal)
  | .jobj fields => fields
  | .jarr xs => (List.enum xs).map (fun p => (toString p.1, p.2))
  | _ => []

/-- `typeof v === "object"` (arrays and `null` included). -/
def isObjectType : JVal → Bool
  | .jobj _ => true
  | .jarr _ => true
  | .jnull => true
  | _ => false

/-- The query pairs `mcpGetPrompt` appends: every entry of the arguments,
`String(value)`-coerced, only when the arguments are a truthy object
(src/lib.mjs lines 393–398). -/
def promptQueryPairs : Option JVal → List (String × String)
  | some v =>
    if jsTruthy v && isObjectType v then (jsEntries v).map (fun p => (p.1, jsToString p.2))
    else []
  | none => []

/-- `json && typeof json === "object" && Array.isArray(json.messages)`. -/
def promptHasMessages (json : JVal) : Bool :=
  jsTruthy json && isObjectType json &&
    (match jsMemberSafe json "messages" with | some (.jarr _) => true | _ => false)

/--
`mcpGetPrompt(httpClient, state, promptName, promptArguments)` (src/lib.mjs
line 381): exact-name lookup in `state.prompts`, `UnknownPrompt` on a miss;
resolve `promptsUrl` + (`href ?? name`) and append the argument entries as
a query string when non-empty; GET with `state.headers`; 401/403 first,
then any other non-2xx is a fatal `PromptFetchFailed`; a JSON body with a
`messages` array passes through verbatim, other JSON is wrapped as a
single stringified assistant message, `text/plain` as a single user
message, anything else is an unsupported content type.
-/
def mcpGetPrompt (client : HttpClient) (state : ServerState) (promptName : String)
    (promptArguments : Option JVal) : List Request × Except Err JVal :=
  match state.prompts with
  | none => ([], .error .typeError)
  | some (.jarr items) =>
    match jsFindByField items "name" promptName with
    | .error e => ([], .error e)
    | .ok none => ([], .error (.unknownPrompt promptName))
    | .ok (some prompt) =>
      match jsMemberE prompt "href" with
      | .error e => ([], .error e)
      | .ok hrefV =>
        match (if jsNullish hrefV then jsMemberE prompt "name" else .ok hrefV) with
        | .error e => ([], .error e)
        | .ok promptPathV =>
          match combineURLsDynBase state.promptsUrl promptPathV with
          | .error e => ([], .error e)
          | .ok basePromptUrl =>
            let qs := formUrlEncode (promptQueryPairs promptArguments)
            let resolvedPromptUrl := if qs = "" then basePromptUrl
                                     else basePromptUrl ++ "?" ++ qs
            ([Request.get resolvedPromptUrl state.headers],
              match client.getUrl resolvedPromptUrl state.headers with
              | .error e => .error (.fetchThrew e)
              | .ok res =>
                match handleHttpError res with
                | .error e => .error e
                | .ok _ =>
                  if res.ok = false then
                    .error (.promptFetchFailed promptName res.status res.statusText)
                  else
                    let contentType := res.contentType.getD ""
                    if strIncludes contentType "application/json" then
                      match res.jsonBody with
                      | .error e => .error (.jsonError e)
                      | .ok json =>
                        if promptHasMessages json then .ok json
                        else
                          .ok (.jobj [("messages", .jarr [.jobj
                            [("role", .jstr "assistant"),
                             ("content", .jobj [("type", .jstr "text"),
                               ("text", .jstr (jsonStringify json))])]])])
                    else if strIncludes contentType "text/plain" then
                      .ok (.jobj [("messages", .jarr [.jobj
                        [("role", .jstr "user"),
                         ("content", .jobj [("type", .jstr "text"),
                           ("text", .jstr res.textBody)])]])])
                    else
                      .error (.unsupportedPromptContentType contentType))
  | some _ => ([], .error .typeError)

/-- Object-spread `{...v}` contribution: an object's fields, an array's
indexed elements, a string's indexed characters, nothing for other
primitives. -/
def jsSpreadFields : JVal → List (String × JVal)
  | .jobj fields => fields
  | .jarr xs => (List.enum xs).map (fun p => (toString p.1, p.2))
  | .jstr s => (List.enum s.data).map (fun p => (toString p.1, .jstr (String.singleton p.2)))
  | _ => []

/-- Object-literal merge `{...base, ...extra}` field semantics: each extra
field overwrites an existing key in place, new keys append. -/
def jsMergeFields (base extra : List (String × JVal)) : List (String × JVal) :=
  extra.foldl (fun acc p => setFieldInList acc p.1 p.2) base

/-- The query pairs `mcpReadResource` sends:
`new URLSearchParams({uri, ...args})` — the spread comes after the `uri`
property, so an args entry named `uri` overwrites the resource URI (the
key keeps first position); values are `String(value)`-coerced. -/
def readResourceQueryPairs (resourceUri : String) (resourceArguments : JVal) :
    List (String × String) :=
  (jsMergeFields [("uri", .jstr resourceUri)] (jsSpreadFields resourceArguments)).map
    (fun p => (p.1, jsToString p.2))

/-- The URL `mcpReadResource` requests (src/lib.mjs lines 463–465): with a
truthy string `href` the resources URL is path-joined with it; with a
falsy `href` the resources URL itself is queried (an `undefined` base is
stringified by the template literal); either way the query string is
appended after `?`.  A truthy non-string `href` (or an `undefined` base
next to a truthy one) makes `combineURLs` throw. -/
def resolveResourceUrl : Option String → Option JVal → String → Except Err String
  | someUrl, hrefV, qs =>
    if jsTruthyOpt hrefV then
      match someUrl, hrefV with
      | some base, some (.jstr s) => .ok (combineURLs base s ++ "?" ++ qs)
      | _, _ => .error .typeError
    else
      .ok ((match someUrl with | some u => u | none => "undefined") ++ "?" ++ qs)

/-- `json && typeof json === "object" && Array.isArray(json.contents)`. -/
def resourceHasContents (json : JVal) : Bool :=
  jsTruthy json && isObjectType json &&
    (match jsMemberSafe json "contents" with | some (.jarr _) => true | _ => false)

/--
`mcpReadResource(httpClient, state, resourceUri, resourceArguments)`
(src/lib.mjs line 450): exact-uri lookup in `state.resources`,
`UnknownResource` on a miss; build the query from `{uri, ...args}`;
GET the href-joined or plain resources URL with `state.headers`; 401/403
first, then any other non-2xx is a fatal `ResourceFetchFailed`; a JSON
body with a `contents` array passes through verbatim, anything else is
wrapped through `toMCPResourceContent`.
-/
def mcpReadResource (client : HttpClient) (state : ServerState) (resourceUri : String)
    (resourceArguments : JVal) : List Request × Except Err JVal :=
  match state.resources with
  | none => ([], .error .typeError)
  | some (.jarr items) =>
    match jsFindByField items "uri" resourceUri with
    | .error e => ([], .error e)
    | .ok none => ([], .error (.unknownResource resourceUri))
    | .ok (some resource) =>
      let qs := formUrlEncode (readResourceQueryPairs resourceUri resourceArguments)
      match jsMemberE resource "href" with
      | .error e => ([], .error e)
      | .ok hrefV =>
        match resolveResourceUrl state.resourcesUrl hrefV qs with
        | .error e => ([], .error e)
        | .ok resolvedResourceUrl =>
          ([Request.get resolvedResourceUrl state.headers],
            match client.getUrl resolvedResourceUrl state.headers with
            | .error e => .error (.fetchThrew e)
            | .ok res =>
              match handleHttpError res with
              | .error e => .error e
              | .ok _ =>
                if res.ok = false then
                  .error (.resourceFetchFailed resourceUri res.status res.statusText)
                else
                  let contentType := res.contentType.getD ""
                  if strIncludes contentType "application/json" then
                    match res.jsonBody with
                    | .error e => .error (.jsonError e)
                    | .ok json =>
                      if resourceHasContents json then .ok json
                      else
                        .ok (.jobj [("contents",
                          .jarr [toMCPResourceContent res resourceUri])])
                  else
                    .ok (.jobj [("contents",
                      .jarr [toMCPResourceContent res resourceUri])]))
  | some _ => ([], .error .typeError)

/-- A tool entry as the data model types it (`SSMCPTool` typedef):
wire-visible fields plus the private `href` routing hint. -/
structure SSMCPTool where
  name : String
  description : String
  inputSchema : JVal
  href : Option String := none

/-- A prompt entry (`SSMCPPrompt` typedef). -/
structure SSMCPPrompt where
  name : String
  description : String
  args : Option JVal := none
  href : Option String := none

/-- A resource entry (`SSMCPResource` typedef); its identity field is
`uri`. -/
structure SSMCPResource where
  uri : String
  name : String
  description : Option String := none
  mimeType : Option String := none
  href : Option String := none

/-- The dynamic object a typed tool entry denotes. -/
def encodeTool (t : SSMCPTool) : JVal :=
  .jobj (("name", .jstr t.name) :: ("description", .jstr t.description) ::
    ("inputSchema", t.inputSchema) ::
    (match t.href with | some h => [("href", .jstr h)] | none => []))

/-- The dynamic object a typed prompt entry denotes. -/
def encodePrompt (p : SSMCPPrompt) : JVal :=
  .jobj (("name", .jstr p.name) :: ("description", .jstr p.description) ::
    ((match p.args with | some a => [("arguments", a)] | none => []) ++
     (match p.href with | some h => [("href", .jstr h)] | none => [])))

/-- The dynamic object a typed resource entry denotes. -/
def encodeResource (r : SSMCPResource) : JVal :=
  .jobj (("uri", .jstr r.uri) :: ("name", .jstr r.name) ::
    ((match r.description with | some d => [("description", .jstr d)] | none => []) ++
     (match r.mimeType with | some m => [("mimeType", .jstr m)] | none => []) ++
     (match r.href with | some h => [("href", .jstr h)] | none => [])))

/-- A state holding all three dispatchable sections as encoded typed
entries, with their companion URLs, as the dispatchers' parameter types
declare it. -/
def mkState (h : Option Headers) (ts : List SSMCPTool) (tu : String)
    (ps : List SSMCPPrompt) (pu : String) (rs : List SSMCPResource) (ru : String) :
    ServerState :=
  { headers := h
    tools := some (.jarr (ts.map encodeTool)), toolsUrl := some tu
    prompts := some (.jarr (ps.map encodePrompt)), promptsUrl := some pu
    resources := some (.jarr (rs.map encodeResource)), resourcesUrl := some ru }

/-- A collaborator that answers every request with the same response. -/
def constClient (res : Response) : HttpClient :=
  { getUrl := fun _ _ => .ok res, postUrl := fun _ _ _ => .ok res }

/-- A run of `i` slashes. -/
def repSlash (i : Nat) : String := ⟨List.replicate i '/'⟩

/-- Does the string end in a slash? -/
def endsWithSlash (s : String) : Bool := s.data.getLast? == some '/'

/-- Does the string start with a slash? -/
def startsWithSlash (s : String) : Bool := s.data.head? == some '/'

/-- A JSON 200 response carrying the given body. -/
def jsonOkResponse (j : JVal) : Response :=
  { status := 200, statusText := "OK", contentType := some "application/json",
    textBody := jsonStringify j, jsonBody := .ok j, bytesBody := [] }

/-- Fixture: caller-supplied headers (an authorization token). -/
def sHeaders : Headers := [("Authorization", "Bearer t")]

def sConfig : ServerConfig := { baseUrl := "http://h", headers := some sHeaders }

/-- Fixture: a manifest declaring only the tools capability. -/
def sManifest : JVal :=
  .jobj [("name", .jstr "srv"), ("version", .jstr "1"), ("tools", .jbool true)]

/-- Fixture: the tools listing with one tool named `t1`. -/
def sToolsJson : JVal :=
  .jarr [.jobj [("name", .jstr "t1"), ("description", .jstr "d"),
    ("inputSchema", .jobj [])]]

/-- Fixture: a collaborator serving the manifest at the base URL, the
tools listing at its section URL, and a JSON result for any POST. -/
def sClient : HttpClient :=
  { getUrl := fun url _ =>
      if url = "http://h" then .ok (jsonOkResponse sManifest)
      else if url = "http://h/tools" then .ok (jsonOkResponse sToolsJson)
      else .error "no route"
    postUrl := fun _ _ _ => .ok (jsonOkResponse (.jobj [("content", .jarr [])])) }

/-- The state `initializeServerState sClient sConfig` returns. -/
def sState : ServerState :=
  { config := some sConfig
    manifest := some sManifest
    tools := some sToolsJson
    toolsUrl := some "http://h/tools" }

/-- Fixture: a resource entry for the C2 analysis. -/
def w2resource : SSMCPResource := { uri := "file://a", name := "a" }

def w2state : ServerState := mkState none [] "T" [] "P" [w2resource] "http://h/resources"

def w2response : Response :=
  { status := 200, statusText := "OK", contentType := some "application/json",
    textBody := "", jsonBody := .ok (.jobj [("contents", .jarr [])]), bytesBody := [] }

/-- Concrete fixtures for the status-priority witness. -/
def w3tool : SSMCPTool := { name := "t", description := "d", inputSchema := .jobj [] }

def w3prompt : SSMCPPrompt := { name := "p", description := "d" }

def w3resource : SSMCPResource := { uri := "u", name := "r" }

def w3response : Response :=
  { status := 401, statusText := "Unauthorized", contentType := some "text/plain",
    textBody := "denied", jsonBody := .error "not json", bytesBody := [] }

/-- Fixture: a collaborator that serves the manifest but answers the
tools section fetch with a 500. -/
def w4client : HttpClient :=
  { getUrl := fun url _ =>
      if url = "http://h" then .ok (jsonOkResponse sManifest)
      else .ok { status := 500, statusText := "ISE", contentType := some "text/plain",
                 textBody := "boom", jsonBody := .error "not json", bytesBody := [] }
    postUrl := fun _ _ _ => .error "unexpected" }

def w4config : ServerConfig := { baseUrl := "http://h", headers := none }

/-- A concrete `text/plain` response with a parameterized media type. -/
def w6response : Response :=
  { status := 200, statusText := "OK", contentType := some "text/plain; charset=utf-8",
    textBody := "Hello", jsonBody := .error "not json", bytesBody := [] }

/-- A collaborator that throws on any request, so a proof that the trace
is empty really means nothing was asked of it. -/
def w9client : HttpClient :=
  { getUrl := fun _ _ => .error "unexpected request",
    postUrl := fun _ _ _ => .error "unexpected request" }

theorem jsMemberE_encodeTool_name (t : SSMCPTool) :
    jsMemberE (encodeTool t) "name" = .ok (some (.jstr t.name)) := rfl

theorem jsMemberE_encodeTool_href (t : SSMCPTool) :
    jsMemberE (encodeTool t) "href" = .ok (t.href.map .jstr) := by
  obtain ⟨n, d, s, h⟩ := t
  cases h <;> rfl

theorem jsMemberE_encodePrompt_name (p : SSMCPPrompt) :
    jsMemberE (encodePrompt p) "name" = .ok (some (.jstr p.name)) := rfl

theorem jsMemberE_encodePrompt_href (p : SSMCPPrompt) :
    jsMemberE (encodePrompt p) "href" = .ok (p.href.map .jstr) := by
  obtain ⟨n, d, a, h⟩ := p
  cases a <;> cases h <;> rfl

theorem jsMemberE_encodeResource_uri (r : SSMCPResource) :
    jsMemberE (encodeResource r) "uri" = .ok (some (.jstr r.uri)) := rfl

theorem jsMemberE_encodeResource_href (r : SSMCPResource) :
    jsMemberE (encodeResource r) "href" = .ok (r.href.map .jstr) := by
  obtain ⟨u, n, d, m, h⟩ := r
  cases d <;> cases m <;> cases h <;> rfl

/-- The dynamic `find` over encoded entries agrees with the typed
`List.find?` on the identity field. -/
theorem jsFindByField_map {α : Type} (f : α → JVal) (key : String) (keyOf : α → String)
    (hf : ∀ a, jsMemberE (f a) key = .ok (some (.jstr (keyOf a))))
    (ts : List α) (target : String) :
    jsFindByField (ts.map f) key target
      = .ok ((ts.find? (fun a => keyOf a == target)).map f) := by
  induction ts with
  | nil => rfl
  | cons a ts ih =>
    rw [List.map_cons, jsFindByField, hf a, List.find?]
    by_cases h : keyOf a = target
    · simp [h]
    · simp only [h, if_false, ih]
      have : (keyOf a == target) = false := by simpa using h
      simp [this]

/-- On a state whose tools are encoded typed entries, a successful lookup
reduces `mcpCallTool` to the request/response tail at the resolved URL. -/
theorem mcpCallTool_spine (client : HttpClient) (st : ServerState)
    (items : List SSMCPTool) (tu : String)
    (htools : st.tools = some (.jarr (items.map encodeTool)))
    (hurl : st.toolsUrl = some tu) (tname : String) (targs : JVal)
    (t : SSMCPTool) (ht : items.find? (fun a => a.name == tname) = some t) :
    mcpCallTool client st tname targs =
      (let url := combineURLs tu (t.href.getD t.name)
       ([Request.post url targs st.headers],
        match client.postUrl url targs st.headers with
        | .error e => .error (.fetchThrew e)
        | .ok res =>
          match handleHttpError res with
          | .error e => .error e
          | .ok _ =>
            match toMCPContent res with
            | .error e => .error e
            | .ok content =>
              .ok (if res.ok then content
                   else jsSetField content "isError" (.jbool true)))) := by
  simp only [mcpCallTool, htools, hurl,
    jsFindByField_map encodeTool "name" SSMCPTool.name jsMemberE_encodeTool_name, ht,
    Option.map_some, jsMemberE_encodeTool_href]
  obtain ⟨n, d, s, hr⟩ := t
  cases hr <;> rfl

/-- On a state whose prompts are encoded typed entries, a successful
lookup reduces `mcpGetPrompt` to the request/response tail at the resolved
URL with the encoded query string. -/
theorem mcpGetPrompt_spine (client : HttpClient) (st : ServerState)
    (items : List SSMCPPrompt) (pu : String)
    (hprompts : st.prompts = some (.jarr (items.map encodePrompt)))
    (hurl : st.promptsUrl = some pu) (pname : String) (pargs : Option JVal)
    (p : SSMCPPrompt) (hp : items.find? (fun a => a.name == pname) = some p) :
    mcpGetPrompt client st pname pargs =
      (let qs := formUrlEncode (promptQueryPairs pargs)
       let url := if qs = "" then combineURLs pu (p.href.getD p.name)
                  else combineURLs pu (p.href.getD p.name) ++ "?" ++ qs
       ([Request.get url st.headers],
        match client.getUrl url st.headers with
        | .error e => .error (.fetchThrew e)
        | .ok res =>
          match handleHttpError res with
          | .error e => .error e
          | .ok _ =>
            if res.ok = false then
              .error (.promptFetchFailed pname res.status res.statusText)
            else
              let contentType := res.contentType.getD ""
              if strIncludes contentType "application/json" then
                match res.jsonBody with
                | .error e => .error (.jsonError e)
                | .ok json =>
                  if promptHasMessages json then .ok json
                  else
                    .ok (.jobj [("messages", .jarr [.jobj
                      [("role", .jstr "assistant"),
                       ("content", .jobj [("type", .jstr "text"),
                         ("text", .jstr (jsonStringify json))])]])])
              else if strIncludes contentType "text/plain" then
                .ok (.jobj [("messages", .jarr [.jobj
                  [("role", .jstr "user"),
                   ("content", .jobj [("type", .jstr "text"),
                     ("text", .jstr res.textBody)])]])])
              else
                .error (.unsupportedPromptContentType contentType))) := by
  simp only [mcpGetPrompt, hprompts, hurl,
    jsFindByField_map encodePrompt "name" SSMCPPrompt.name jsMemberE_encodePrompt_name, hp,
    Option.map_some, jsMemberE_encodePrompt_href]
  obtain ⟨n, d, a, hr⟩ := p
  cases hr <;>
    simp [jsMemberE_encodePrompt_href, jsMemberE_encodePrompt_name,
      combineURLsDynBase, jsNullish, jsTruthyOpt, jsTruthy]

/-- On a state whose resources are encoded typed entries, a successful
lookup reduces `mcpReadResource` to the request/response tail; the URL is
the href-joined resources URL when the entry has a non-empty `href` and
the plain resources URL otherwise, with the merged query string after
`?`. -/
theorem mcpReadResource_spine (client : HttpClient) (st : ServerState)
    (items : List SSMCPResource) (ru : String)
    (hres : st.resources = some (.jarr (items.map encodeResource)))
    (hurl : st.resourcesUrl = some ru) (uri : String) (args : JVal)
    (r : SSMCPResource) (hr : items.find? (fun a => a.uri == uri) = some r) :
    mcpReadResource client st uri args =
      (let qs := formUrlEncode (readResourceQueryPairs uri args)
       let url := match r.href with
                  | some h' => if h' = "" then ru ++ "?" ++ qs
                               else combineURLs ru h' ++ "?" ++ qs
                  | none => ru ++ "?" ++ qs
       ([Request.get url st.headers],
        match client.getUrl url st.headers with
        | .error e => .error (.fetchThrew e)
        | .ok res =>
          match handleHttpError res with
          | .error e => .error e
          | .ok _ =>
            if res.ok = false then
              .error (.resourceFetchFailed uri res.status res.statusText)
            else
              let contentType := res.contentType.getD ""
              if strIncludes contentType "application/json" then
                match res.jsonBody with
                | .error e => .error (.jsonError e)
                | .ok json =>
                  if resourceHasContents json then .ok json
                  else
                    .ok (.jobj [("contents", .jarr [toMCPResourceContent res uri])])
              else
                .ok (.jobj [("contents", .jarr [toMCPResourceContent res uri])]))) := by
  simp only [mcpReadResource, hres, hurl,
    jsFindByField_map encodeResource "uri" SSMCPResource.uri jsMemberE_encodeResource_uri, hr,
    Option.map_some, jsMemberE_encodeResource_href]
  obtain ⟨u, n, d, m, hh⟩ := r
  cases hh with
  | none =>
    simp [jsMemberE_encodeResource_href, resolveResourceUrl, jsTruthyOpt, jsTruthy]
  | some h' =>
    by_cases he : h' = ""
    · simp [jsMemberE_encodeResource_href, resolveResourceUrl, jsTruthyOpt, jsTruthy, he]
    · have hb : (h' == "") = false := by simpa using he
      simp [jsMemberE_encodeResource_href, resolveResourceUrl, jsTruthyOpt, jsTruthy, he, hb]

theorem dropWhile_slash_replicate (i : Nat) (l : List Char) :
    (List.replicate i '/' ++ l).dropWhile (· == '/') = l.dropWhile (· == '/') := by
  induction i with
  | zero => rfl
  | succ n ih => simp [List.replicate_succ, List.dropWhile_cons, ih]

theorem head?_dropWhile_false (p : Char → Bool) (l : List Char) (c : Char)
    (h : (l.dropWhile p).head? = some c) : p c = false := by
  induction l with
  | nil => simp [List.dropWhile] at h
  | cons a l ih =>
    rw [List.dropWhile_cons] at h
    by_cases hp : p a = true
    · exact ih (by simpa [hp] using h)
    · rw [if_neg hp] at h
      simp only [List.head?] at h
      cases h
      simpa using hp

theorem stripTrailingSlashes_append_rep (b : String) (i : Nat) :
    stripTrailingSlashes (b ++ repSlash i) = stripTrailingSlashes b := by
  apply String.ext
  show (((b ++ repSlash i).data.reverse.dropWhile (· == '/')).reverse)
      = ((b.data.reverse.dropWhile (· == '/')).reverse)
  have hd : (b ++ repSlash i).data = b.data ++ List.replicate i '/' := rfl
  rw [hd, List.reverse_append, List.reverse_replicate, dropWhile_slash_replicate]

theorem stripLeadingSlashes_rep_append (r : String) (j : Nat) :
    stripLeadingSlashes (repSlash j ++ r) = stripLeadingSlashes r := by
  apply String.ext
  show ((repSlash j ++ r).data.dropWhile (· == '/')) = (r.data.dropWhile (· == '/'))
  have hd : (repSlash j ++ r).data = List.replicate j '/' ++ r.data := rfl
  rw [hd, dropWhile_slash_replicate]

theorem stripTrailingSlashes_no_slash (b : String) :
    endsWithSlash (stripTrailingSlashes b) = false := by
  unfold endsWithSlash stripTrailingSlashes
  rw [show (String.mk ((b.data.reverse.dropWhile (· == '/')).reverse)).data
      = (b.data.reverse.dropWhile (· == '/')).reverse from rfl]
  rw [List.getLast?_reverse]
  cases hh : (b.data.reverse.dropWhile (· == '/')).head? with
  | none => rfl
  | some c =>
    have := head?_dropWhile_false (· == '/') b.data.reverse c hh
    simpa using this

theorem stripLeadingSlashes_no_slash (r : String) :
    startsWithSlash (stripLeadingSlashes r) = false := by
  unfold startsWithSlash stripLeadingSlashes
  rw [show (String.mk (r.data.dropWhile (· == '/'))).data
      = r.data.dropWhile (· == '/') from rfl]
  cases hh : (r.data.dropWhile (· == '/')).head? with
  | none => rfl
  | some c =>
    have := head?_dropWhile_false (· == '/') r.data c hh
    simpa using this

theorem repSlash_append_ne_empty (r : String) (hr : r ≠ "") (j : Nat) :
    repSlash j ++ r ≠ "" := by
  intro h
  apply hr
  apply String.ext
  have : (repSlash j ++ r).data = List.replicate j '/' ++ r.data := rfl
  rw [h] at this
  have h2 : List.replicate j '/' ++ r.data = ([] : List Char) := this.symm
  simpa using (List.append_eq_nil.mp h2).2

/--
Claim C7: for every base string and every non-empty relative string, with
0–2 trailing slashes appended to the base and 0–2 leading slashes
prepended to the relative part, `combineURLs` produces the slash-stripped
base and relative part joined by exactly one `/` (the stripped base never
ends in a slash and the stripped relative part never starts with one, so
the join point has exactly one separating slash); and for every base,
`combineURLs base "" = base` unchanged.
-/
theorem combineURLs_single_separating_slash :
    (∀ (base rel : String), rel ≠ "" → ∀ i j : Nat, i ≤ 2 → j ≤ 2 →
      combineURLs (base ++ repSlash i) (repSlash j ++ rel)
          = stripTrailingSlashes base ++ "/" ++ stripLeadingSlashes rel
        ∧ endsWithSlash (stripTrailingSlashes base) = false
        ∧ startsWithSlash (stripLeadingSlashes rel) = false)
    ∧ (∀ base : String, combineURLs base "" = base) := by
  constructor
  · intro base rel hr i j _ _
    refine ⟨?_, stripTrailingSlashes_no_slash base, stripLeadingSlashes_no_slash rel⟩
    rw [combineURLs, if_neg (repSlash_append_ne_empty rel hr j),
      stripTrailingSlashes_append_rep, stripLeadingSlashes_rep_append]
  · intro base
    rw [combineURLs, if_pos rfl]

/-- Witness: the slash normalization at the concrete inputs
`base = "http://h"`, `rel = "tools"`, two appended and one prepended
slash. -/
theorem combineURLs_single_separating_slash_witness :
    combineURLs ("http://h" ++ repSlash 2) (repSlash 1 ++ "tools")
        = stripTrailingSlashes "http://h" ++ "/" ++ stripLeadingSlashes "tools"
      ∧ endsWithSlash (stripTrailingSlashes "http://h") = false
      ∧ startsWithSlash (stripLeadingSlashes "tools") = false :=
  combineURLs_single_separating_slash.1 "http://h" "tools" (by decide) 2 1
    (by decide) (by decide)

/--
Claim C6: `toMCPContent` is a fixed-priority, first-match-wins case
analysis on the `Content-Type` header: a type containing `text/plain`
yields a single text block of the decoded body; failing that, one
containing `application/json` parses the body `j` and yields
`{content: j}` for an array, `j` verbatim for a non-null object, the
string itself for a string primitive and the JSON-stringified value for
other primitives; failing those, a type starting with `image/` yields a
single image block carrying the full header value and the base64 bytes;
any other (including absent) content type fails with
`UnsupportedContentType`.
-/
theorem toMCPContent_priority_cases (res : Response) :
    (strIncludes (res.contentType.getD "") "text/plain" = true →
       toMCPContent res = .ok (makeTextContent res.textBody))
    ∧ (strIncludes (res.contentType.getD "") "text/plain" = false →
       strIncludes (res.contentType.getD "") "application/json" = true →
       ∀ j, res.jsonBody = .ok j →
         (∀ elems, j = .jarr elems →
            toMCPContent res = .ok (.jobj [("content", .jarr elems)]))
         ∧ (∀ fields, j = .jobj fields → toMCPContent res = .ok (.jobj fields))
         ∧ (∀ s, j = .jstr s → toMCPContent res = .ok (makeTextContent s))
         ∧ (∀ n : Int, j = .jnum n →
              toMCPContent res = .ok (makeTextContent (toString n)))
         ∧ (∀ b : Bool, j = .jbool b →
              toMCPContent res = .ok (makeTextContent (if b then "true" else "false"))))
    ∧ (strIncludes (res.contentType.getD "") "text/plain" = false →
       strIncludes (res.contentType.getD "") "application/json" = false →
       (res.contentType.getD "").startsWith "image/" = true →
       toMCPContent res = .ok (.jobj [("content", .jarr [.jobj
         [("type", .jstr "image"), ("mimeType", .jstr (res.contentType.getD "")),
          ("data", .jstr (base64Encode res.bytesBody))]])]))
    ∧ (strIncludes (res.contentType.getD "") "text/plain" = false →
       strIncludes (res.contentType.getD "") "application/json" = false →
       (res.contentType.getD "").startsWith "image/" = false →
       toMCPContent res = .error (.unsupportedContentType (res.contentType.getD ""))) := by
  refine ⟨?_, ?_, ?_, ?_⟩
  · intro h1
    simp [toMCPContent, h1]
  · intro h1 h2 j hj
    refine ⟨?_, ?_, ?_, ?_, ?_⟩ <;>
      (intros; subst_vars; simp [toMCPContent, h1, h2, hj, jsonStringify])
  · intro h1 h2 h3
    simp [toMCPContent, h1, h2, h3]
  · intro h1 h2 h3
    simp [toMCPContent, h1, h2, h3]

/-- Witness: the `text/plain` arm of the transcoder case analysis at a
concrete response. -/
theorem toMCPContent_priority_cases_witness :
    toMCPContent w6response = .ok (makeTextContent "Hello") :=
  (toMCPContent_priority_cases w6response).1 (by decide)

/--
Claim C10: a manifest capability field holding the empty string is falsy,
so `fetchManifestSection` treats it exactly like an absent or `false`
field: it issues no request and contributes neither the section array nor
its companion URL.
-/
theorem emptyString_section_like_absent (client : HttpClient) (baseUrl : String)
    (headers : Option Headers) (sectionName : String) :
    fetchManifestSection client baseUrl headers sectionName (some (.jstr ""))
        = ([], .ok none)
    ∧ fetchManifestSection client baseUrl headers sectionName (some (.jbool false))
        = ([], .ok none)
    ∧ fetchManifestSection client baseUrl headers sectionName none = ([], .ok none) :=
  ⟨rfl, rfl, rfl⟩

/-- A truthy manifest value always makes `fetchManifestSection` issue
exactly the one GET at the resolved section path, whatever the
collaborator answers. -/
theorem fetchManifestSection_fst_truthy (client : HttpClient) (baseUrl : String)
    (headers : Option Headers) (sectionName : String) (v : Option JVal)
    (hv : jsTruthyOpt v = true) :
    (fetchManifestSection client baseUrl headers sectionName v).fst
      = [Request.get (combineURLs baseUrl (sectionPath sectionName v)) headers] := by
  rw [fetchManifestSection, if_neg (by simp [hv])]
  cases hcl : client.getUrl (combineURLs baseUrl (sectionPath sectionName v)) headers with
  | error e => simp [hcl]
  | ok res =>
    by_cases hok : res.ok = false
    · simp [hcl, hok]
    · cases hjb : res.jsonBody <;> simp [hcl, hok, hjb]

/--
Claim C8: a capability declared `true` is fetched at the default relative
path, which is the capability name for `tools`, `prompts` and `resources`
but the snake-cased `resource_templates` for `resourceTemplates` (and the
two candidate URLs genuinely differ); a string capability value is used
verbatim as the relative path.
-/
theorem section_default_and_custom_paths (client : HttpClient) (baseUrl : String)
    (headers : Option Headers) :
    (fetchManifestSection client baseUrl headers "tools" (some (.jbool true))).fst
        = [Request.get (combineURLs baseUrl "tools") headers]
    ∧ (fetchManifestSection client baseUrl headers "prompts" (some (.jbool true))).fst
        = [Request.get (combineURLs baseUrl "prompts") headers]
    ∧ (fetchManifestSection client baseUrl headers "resources" (some (.jbool true))).fst
        = [Request.get (combineURLs baseUrl "resources") headers]
    ∧ (fetchManifestSection client baseUrl headers "resourceTemplates"
          (some (.jbool true))).fst
        = [Request.get (combineURLs baseUrl "resource_templates") headers]
    ∧ (∀ s : String, s ≠ "" → ∀ sectionName : String,
        (fetchManifestSection client baseUrl headers sectionName (some (.jstr s))).fst
          = [Request.get (combineURLs baseUrl s) headers])
    ∧ combineURLs baseUrl "resource_templates" ≠ combineURLs baseUrl "resourceTemplates" := by
  refine ⟨fetchManifestSection_fst_truthy client baseUrl headers "tools" _ rfl,
    fetchManifestSection_fst_truthy client baseUrl headers "prompts" _ rfl,
    fetchManifestSection_fst_truthy client baseUrl headers "resources" _ rfl,
    fetchManifestSection_fst_truthy client baseUrl headers "resourceTemplates" _ rfl,
    ?_, ?_⟩
  · intro s hs sectionName
    have hx := fetchManifestSection_fst_truthy client baseUrl headers sectionName
      (some (.jstr s)) (by simpa [jsTruthyOpt, jsTruthy] using hs)
    simpa [sectionPath] using hx
  · intro heq
    have e1 : combineURLs baseUrl "resource_templates"
        = stripTrailingSlashes baseUrl ++ "/" ++ stripLeadingSlashes "resource_templates" := by
      rw [combineURLs, if_neg (by decide)]
    have e2 : combineURLs baseUrl "resourceTemplates"
        = stripTrailingSlashes baseUrl ++ "/" ++ stripLeadingSlashes "resourceTemplates" := by
      rw [combineURLs, if_neg (by decide)]
    rw [e1, e2] at heq
    have hlen := congrArg String.length heq
    rw [String.length_append, String.length_append,
      String.length_append, String.length_append] at hlen
    have hl1 : (stripLeadingSlashes "resource_templates").length = 18 := by decide
    have hl2 : (stripLeadingSlashes "resourceTemplates").length = 17 := by decide
    rw [hl1, hl2] at hlen
    omega

/-- Witness: a string capability value is fetched verbatim at a concrete
custom path. -/
theorem section_default_and_custom_paths_witness :
    (fetchManifestSection w9client "http://b" none "tools" (some (.jstr "custom"))).fst
      = [Request.get (combineURLs "http://b" "custom") none] :=
  (section_default_and_custom_paths w9client "http://b" none).2.2.2.2.1 "custom"
    (by decide) "tools"

/--
Claim C3: for every upstream response, a 401 (resp. 403) status makes
`mcpCallTool`, `mcpGetPrompt` and `mcpReadResource` all fail with
`Unauthorized` (resp. `Forbidden`) regardless of the body or content
type; any other non-2xx status leaves `mcpCallTool` succeeding with the
transcoded content tagged `isError: true`, while `mcpGetPrompt` and
`mcpReadResource` fail fatally with `PromptFetchFailed` /
`ResourceFetchFailed`.
-/
theorem dispatcher_status_priority
    (res : Response) (h : Option Headers)
    (ts : List SSMCPTool) (tu : String) (ps : List SSMCPPrompt) (pu : String)
    (rs : List SSMCPResource) (ru : String) (st : ServerState)
    (hst : st = mkState h ts tu ps pu rs ru)
    (tname pname ruri : String) (targs : JVal) (pargs : Option JVal) (rargs : JVal)
    (t : SSMCPTool) (ht : ts.find? (fun a => a.name == tname) = some t)
    (p : SSMCPPrompt) (hp : ps.find? (fun a => a.name == pname) = some p)
    (r : SSMCPResource) (hr : rs.find? (fun a => a.uri == ruri) = some r) :
    (res.status = 401 →
        (mcpCallTool (constClient res) st tname targs).snd = .error .unauthorized
      ∧ (mcpGetPrompt (constClient res) st pname pargs).snd = .error .unauthorized
      ∧ (mcpReadResource (constClient res) st ruri rargs).snd = .error .unauthorized)
    ∧ (res.status = 403 →
        (mcpCallTool (constClient res) st tname targs).snd = .error .forbidden
      ∧ (mcpGetPrompt (constClient res) st pname pargs).snd = .error .forbidden
      ∧ (mcpReadResource (constClient res) st ruri rargs).snd = .error .forbidden)
    ∧ (res.status ≠ 401 → res.status ≠ 403 → res.ok = false →
        (∀ c, toMCPContent res = .ok c →
          (mcpCallTool (constClient res) st tname targs).snd
            = .ok (jsSetField c "isError" (.jbool true)))
      ∧ (mcpGetPrompt (constClient res) st pname pargs).snd
          = .error (.promptFetchFailed pname res.status res.statusText)
      ∧ (mcpReadResource (constClient res) st ruri rargs).snd
          = .error (.resourceFetchFailed ruri res.status res.statusText)) := by
  subst hst
  have hc := mcpCallTool_spine (constClient res) (mkState h ts tu ps pu rs ru)
    ts tu rfl rfl tname targs t ht
  have hg := mcpGetPrompt_spine (constClient res) (mkState h ts tu ps pu rs ru)
    ps pu rfl rfl pname pargs p hp
  have hrr := mcpReadResource_spine (constClient res) (mkState h ts tu ps pu rs ru)
    rs ru rfl rfl ruri rargs r hr
  refine ⟨?_, ?_, ?_⟩
  · intro h401
    refine ⟨?_, ?_, ?_⟩
    · rw [hc]; simp [constClient, handleHttpError, h401]
    · rw [hg]; simp [constClient, handleHttpError, h401]
    · rw [hrr]; simp [constClient, handleHttpError, h401]
  · intro h403
    refine ⟨?_, ?_, ?_⟩
    · rw [hc]; simp [constClient, handleHttpError, h403]
    · rw [hg]; simp [constClient, handleHttpError, h403]
    · rw [hrr]; simp [constClient, handleHttpError, h403]
  · intro hne1 hne2 hok
    refine ⟨?_, ?_, ?_⟩
    · intro c htc
      rw [hc]; simp [constClient, handleHttpError, hne1, hne2, htc, hok]
    · rw [hg]; simp [constClient, handleHttpError, hne1, hne2, hok]
    · rw [hrr]; simp [constClient, handleHttpError, hne1, hne2, hok]

/-- Witness: a 401 response makes all three dispatchers fail with
`Unauthorized` at concrete inputs. -/
theorem dispatcher_status_priority_witness :
    (mcpCallTool (constClient w3response)
        (mkState none [w3tool] "T" [w3prompt] "P" [w3resource] "R") "t" (.jobj [])).snd
      = .error .unauthorized
    ∧ (mcpGetPrompt (constClient w3response)
        (mkState none [w3tool] "T" [w3prompt] "P" [w3resource] "R") "p" none).snd
      = .error .unauthorized
    ∧ (mcpReadResource (constClient w3response)
        (mkState none [w3tool] "T" [w3prompt] "P" [w3resource] "R") "u" (.jobj [])).snd
      = .error .unauthorized :=
  (dispatcher_status_priority w3response none [w3tool] "T" [w3prompt] "P" [w3resource] "R"
    _ rfl "t" "p" "u" (.jobj []) none (.jobj [])
    w3tool (by rfl) w3prompt (by rfl) w3resource (by rfl)).1 rfl

/--
Claim C9: a name (resp. uri) matching no entry of the corresponding
section makes `mcpCallTool` (resp. `mcpGetPrompt`, `mcpReadResource`) fail
with `UnknownTool` (resp. `UnknownPrompt`, `UnknownResource`) while
issuing no request at all, for every collaborator.
-/
theorem unknown_lookup_no_network
    (client : HttpClient) (h : Option Headers)
    (ts : List SSMCPTool) (tu : String) (ps : List SSMCPPrompt) (pu : String)
    (rs : List SSMCPResource) (ru : String) (st : ServerState)
    (hst : st = mkState h ts tu ps pu rs ru)
    (tname pname ruri : String) (targs : JVal) (pargs : Option JVal) (rargs : JVal)
    (ht : ts.find? (fun a => a.name == tname) = none)
    (hp : ps.find? (fun a => a.name == pname) = none)
    (hr : rs.find? (fun a => a.uri == ruri) = none) :
    mcpCallTool client st tname targs = ([], .error (.unknownTool tname))
    ∧ mcpGetPrompt client st pname pargs = ([], .error (.unknownPrompt pname))
    ∧ mcpReadResource client st ruri rargs = ([], .error (.unknownResource ruri)) := by
  subst hst
  refine ⟨?_, ?_, ?_⟩
  · simp [mcpCallTool, mkState,
      jsFindByField_map encodeTool "name" SSMCPTool.name jsMemberE_encodeTool_name, ht]
  · simp [mcpGetPrompt, mkState,
      jsFindByField_map encodePrompt "name" SSMCPPrompt.name jsMemberE_encodePrompt_name, hp]
  · simp [mcpReadResource, mkState,
      jsFindByField_map encodeResource "uri" SSMCPResource.uri jsMemberE_encodeResource_uri, hr]

/-- Witness: unknown name/uri at concrete inputs yields the typed errors
with an empty request trace. -/
theorem unknown_lookup_no_network_witness :
    mcpCallTool w9client (mkState none [] "T" [] "P" [] "R") "nope" (.jobj [])
      = ([], .error (.unknownTool "nope"))
    ∧ mcpGetPrompt w9client (mkState none [] "T" [] "P" [] "R") "nope" none
      = ([], .error (.unknownPrompt "nope"))
    ∧ mcpReadResource w9client (mkState none [] "T" [] "P" [] "R") "nope" (.jobj [])
      = ([], .error (.unknownResource "nope")) :=
  unknown_lookup_no_network w9client none [] "T" [] "P" [] "R" _ rfl
    "nope" "nope" "nope" (.jobj []) none (.jobj []) rfl rfl rfl

theorem lookupField_setFieldInList_ne (l : List (String × JVal)) (k k' : String) (v : JVal)
    (h : k' ≠ k) : lookupField (setFieldInList l k' v) k = lookupField l k := by
  induction l with
  | nil => simp [setFieldInList, lookupField, h]
  | cons p rest ih =>
    obtain ⟨a, b⟩ := p
    by_cases ha : a = k'
    · subst ha
      simp [setFieldInList, lookupField, h]
    · simp [setFieldInList, lookupField, ha, ih]

theorem lookupField_setFieldInList_eq (l : List (String × JVal)) (k : String) (v : JVal) :
    lookupField (setFieldInList l k v) k = some v := by
  induction l with
  | nil => simp [setFieldInList, lookupField]
  | cons p rest ih =>
    obtain ⟨a, b⟩ := p
    by_cases ha : a = k
    · subst ha
      simp [setFieldInList, lookupField]
    · simp [setFieldInList, lookupField, ha, ih]

theorem lookupField_eq_none_of_not_mem (l : List (String × JVal)) (k : String)
    (h : k ∉ l.map Prod.fst) : lookupField l k = none := by
  induction l with
  | nil => rfl
  | cons p rest ih =>
    obtain ⟨a, b⟩ := p
    simp only [List.map_cons, List.mem_cons] at h
    push_neg at h
    rw [lookupField, if_neg (fun hh => h.1 hh.symm)]
    exact ih h.2

theorem lookupField_jsMergeFields_none (base extra : List (String × JVal)) (k : String)
    (h : lookupField extra k = none) :
    lookupField (jsMergeFields base extra) k = lookupField base k := by
  induction extra generalizing base with
  | nil => rfl
  | cons p rest ih =>
    obtain ⟨k', v⟩ := p
    by_cases hk : k' = k
    · subst hk
      simp [lookupField] at h
    · rw [lookupField, if_neg hk] at h
      show lookupField (jsMergeFields (setFieldInList base k' v) rest) k = lookupField base k
      rw [ih (setFieldInList base k' v) h, lookupField_setFieldInList_ne base k k' v hk]

theorem lookupField_jsMergeFields_some (extra : List (String × JVal)) :
    ∀ (base : List (String × JVal)) (k : String) (v : JVal),
      (extra.map Prod.fst).Nodup → lookupField extra k = some v →
      lookupField (jsMergeFields base extra) k = some v := by
  induction extra with
  | nil =>
    intro base k v _ h
    simp [lookupField] at h
  | cons p rest ih =>
    obtain ⟨k', w⟩ := p
    intro base k v hnd h
    rw [List.map_cons, List.nodup_cons] at hnd
    by_cases hk : k' = k
    · subst hk
      rw [lookupField, if_pos rfl] at h
      show lookupField (jsMergeFields (setFieldInList base k' w) rest) k' = some v
      rw [lookupField_jsMergeFields_none (setFieldInList base k' w) rest k'
        (lookupField_eq_none_of_not_mem rest k' hnd.1)]
      rw [lookupField_setFieldInList_eq base k' w]
      exact h
    · rw [lookupField, if_neg hk] at h
      exact ih (setFieldInList base k' w) k v hnd.2 h

/--
Claim C2 (amended): for a state whose resources contain an entry with the
requested uri, `mcpReadResource` issues exactly one GET, whose URL is the
href-joined resources URL (plain resources URL when `href` is absent or
empty) followed by `?` and the encoded query; the query pairs are the
spread-merge of `{uri}` with the args fields, so the `uri` parameter is
always present and first, holding the requested uri — unless args itself
carries a `uri` key, whose value then overwrites it.
-/
theorem readResource_request_url
    (client : HttpClient) (st : ServerState) (items : List SSMCPResource) (ru : String)
    (hres : st.resources = some (.jarr (items.map encodeResource)))
    (hurl : st.resourcesUrl = some ru)
    (uri : String) (args : List (String × JVal))
    (hnd : (args.map Prod.fst).Nodup)
    (r : SSMCPResource) (hr : items.find? (fun a => a.uri == uri) = some r) :
    (mcpReadResource client st uri (.jobj args)).fst
      = [Request.get
          ((match r.href with
            | some h' => if h' = "" then ru else combineURLs ru h'
            | none => ru)
            ++ "?" ++ formUrlEncode (readResourceQueryPairs uri (.jobj args)))
          st.headers]
    ∧ readResourceQueryPairs uri (.jobj args)
        = (jsMergeFields [("uri", .jstr uri)] args).map (fun p => (p.1, jsToString p.2))
    ∧ (lookupField args "uri" = none →
        lookupField (jsMergeFields [("uri", .jstr uri)] args) "uri" = some (.jstr uri))
    ∧ (∀ v, lookupField args "uri" = some v →
        lookupField (jsMergeFields [("uri", .jstr uri)] args) "uri" = some v) := by
  refine ⟨?_, rfl, ?_, ?_⟩
  · rw [mcpReadResource_spine client st items ru hres hurl uri (.jobj args) r hr]
    cases hh : r.href with
    | none => rfl
    | some h' =>
      by_cases he : h' = ""
      · simp [he]
      · simp [he]
  · intro hnone
    exact lookupField_jsMergeFields_none _ args "uri" hnone
  · intro v hsome
    exact lookupField_jsMergeFields_some args [("uri", .jstr uri)] "uri" v hnd hsome

/--
Counterexample to claim C2 as stated: with args `{uri: "evil"}` the single
GET issued for resource `file://a` carries `uri=evil` — the args field
overwrites the `uri` parameter, while the claim requires the encoded
`file://a` regardless of args.
-/
theorem readResource_uri_override_counterexample :
    (mcpReadResource (constClient w2response) w2state "file://a"
        (.jobj [("uri", .jstr "evil")])).fst
      = [Request.get "http://h/resources?uri=evil" none]
    ∧ "http://h/resources" ++ "?" ++ formUrlEncode [("uri", "file://a")]
        = "http://h/resources?uri=file%3A%2F%2Fa"
    ∧ "http://h/resources?uri=evil" ≠ "http://h/resources?uri=file%3A%2F%2Fa" := by
  refine ⟨rfl, by decide, by decide⟩

/-- Witness: the amended request-URL description at the concrete
override input. -/
theorem readResource_request_url_witness :
    (mcpReadResource (constClient w2response) w2state "file://a"
        (.jobj [("uri", .jstr "evil")])).fst
      = [Request.get
          ("http://h/resources" ++ "?"
            ++ formUrlEncode (readResourceQueryPairs "file://a"
                  (.jobj [("uri", .jstr "evil")])))
          none]
    ∧ readResourceQueryPairs "file://a" (.jobj [("uri", .jstr "evil")])
        = (jsMergeFields [("uri", .jstr "file://a")] [("uri", .jstr "evil")]).map
            (fun p => (p.1, jsToString p.2))
    ∧ (lookupField [("uri", .jstr "evil")] "uri" = none →
        lookupField (jsMergeFields [("uri", .jstr "file://a")] [("uri", .jstr "evil")]) "uri"
          = some (.jstr "file://a"))
    ∧ (∀ v, lookupField [("uri", .jstr "evil")] "uri" = some v →
        lookupField (jsMergeFields [("uri", .jstr "file://a")] [("uri", .jstr "evil")]) "uri"
          = some v) :=
  readResource_request_url (constClient w2response) w2state [w2resource] "http://h/resources"
    rfl rfl "file://a" [("uri", .jstr "evil")] (by simp) w2resource rfl

/-- Inversion of a successful initialization: the manifest fetch
succeeded and parsed, every member read succeeded, every section fetch
succeeded, and the returned state is exactly the assembled record. -/
theorem initializeServerState_ok_inv (client : HttpClient) (config : ServerConfig)
    (st : ServerState) (hok : (initializeServerState client config).snd = .ok st) :
    ∃ mres m vt vp vr vrt s1 s2 s3 s4,
      client.getUrl config.baseUrl config.headers = .ok mres
      ∧ mres.ok = true
      ∧ mres.jsonBody = .ok m
      ∧ jsMemberE m "tools" = .ok vt
      ∧ jsMemberE m "prompts" = .ok vp
      ∧ jsMemberE m "resources" = .ok vr
      ∧ jsMemberE m "resourceTemplates" = .ok vrt
      ∧ (fetchManifestSection client config.baseUrl config.headers "tools" vt).snd = .ok s1
      ∧ (fetchManifestSection client config.baseUrl config.headers "prompts" vp).snd = .ok s2
      ∧ (fetchManifestSection client config.baseUrl config.headers "resources" vr).snd = .ok s3
      ∧ (fetchManifestSection client config.baseUrl config.headers "resourceTemplates"
          vrt).snd = .ok s4
      ∧ st = { config := some config, manifest := some m,
               tools := s1.map Prod.fst, toolsUrl := s1.map Prod.snd,
               prompts := s2.map Prod.fst, promptsUrl := s2.map Prod.snd,
               resources := s3.map Prod.fst, resourcesUrl := s3.map Prod.snd,
               resourceTemplates := s4.map Prod.fst,
               resourceTemplatesUrl := s4.map Prod.snd } := by
  rw [initializeServerState] at hok
  split at hok
  · simp at hok
  · rename_i mres hm
    split at hok
    · simp at hok
    · rename_i hmok
      split at hok
      · simp at hok
      · rename_i m hj
        split at hok
        · rename_i vt vp vr vrt hvt hvp hvr hvrt
          simp only [] at hok
          split at hok
          · rename_i s1 s2 s3 s4 hr1 hr2 hr3 hr4
            simp only [Except.ok.injEq] at hok
            exact ⟨mres, m, vt, vp, vr, vrt, s1, s2, s3, s4, hm, by simpa using hmok,
              hj, hvt, hvp, hvr, hvrt, hr1, hr2, hr3, hr4, hok.symm⟩
          all_goals simp at hok
        all_goals simp at hok

/-- A successful section fetch contributes data exactly when the manifest
value was truthy. -/
theorem fetchManifestSection_ok_shape (client : HttpClient) (baseUrl : String)
    (headers : Option Headers) (sectionName : String) (v : Option JVal)
    (s : Option (JVal × String))
    (h : (fetchManifestSection client baseUrl headers sectionName v).snd = .ok s) :
    s.isSome = jsTruthyOpt v := by
  by_cases htr : jsTruthyOpt v = true
  · rw [fetchManifestSection, if_neg (by simp [htr])] at h
    simp only [] at h
    split at h
    · simp at h
    · split at h
      · simp at h
      · split at h
        · simp at h
        · simp only [Except.ok.injEq] at h
          rw [← h, htr]
          rfl
  · rw [fetchManifestSection, if_pos (by simpa using htr)] at h
    simp at h
    rw [← h]
    simp [Bool.not_eq_true] at htr
    rw [htr]
    rfl

/-- A truthy section whose fetch returns non-2xx or throws makes
`fetchManifestSection` fail. -/
theorem fetchManifestSection_fails (client : HttpClient) (baseUrl : String)
    (headers : Option Headers) (sectionName : String) (v : Option JVal)
    (htr : jsTruthyOpt v = true)
    (hfail : match client.getUrl (combineURLs baseUrl (sectionPath sectionName v)) headers with
             | .error _ => True
             | .ok r => r.ok = false) :
    ∃ e, (fetchManifestSection client baseUrl headers sectionName v).snd = .error e := by
  cases hcl : client.getUrl (combineURLs baseUrl (sectionPath sectionName v)) headers with
  | error e =>
    refine ⟨.fetchThrew e, ?_⟩
    rw [fetchManifestSection, if_neg (by simp [htr])]
    simp [hcl]
  | ok r =>
    rw [hcl] at hfail
    simp only [] at hfail
    refine ⟨.sectionFetchFailed sectionName r.status r.statusText, ?_⟩
    rw [fetchManifestSection, if_neg (by simp [htr])]
    simp [hcl, hfail]

/--
Claim C4: if the manifest fetch succeeded and parsed, and any section the
manifest declares truthy has its fetch answer non-2xx or throw, then
`initializeServerState` fails with an error — no state, partial or
otherwise, is returned.
-/
theorem initialize_all_or_nothing (client : HttpClient) (config : ServerConfig)
    (mres : Response)
    (hm : client.getUrl config.baseUrl config.headers = .ok mres)
    (hmok : mres.ok = true)
    (m : JVal) (hjson : mres.jsonBody = .ok m)
    (secName : String)
    (hsec : secName = "tools" ∨ secName = "prompts" ∨ secName = "resources"
            ∨ secName = "resourceTemplates")
    (v : Option JVal) (hv : jsMemberE m secName = .ok v) (htr : jsTruthyOpt v = true)
    (hfail : match client.getUrl (combineURLs config.baseUrl (sectionPath secName v))
                config.headers with
             | .error _ => True
             | .ok r => r.ok = false) :
    ∃ e, (initializeServerState client config).snd = .error e := by
  cases hres : (initializeServerState client config).snd with
  | error e => exact ⟨e, rfl⟩
  | ok st =>
    exfalso
    obtain ⟨mres', m', vt, vp, vr, vrt, s1, s2, s3, s4, hm', hmok', hj', hvt, hvp, hvr, hvrt,
      hr1, hr2, hr3, hr4, hst⟩ := initializeServerState_ok_inv client config st hres
    rw [hm] at hm'
    injection hm' with hmres
    subst hmres
    rw [hjson] at hj'
    injection hj' with hmm
    subst hmm
    obtain ⟨efail, hefail⟩ :=
      fetchManifestSection_fails client config.baseUrl config.headers secName v htr hfail
    rcases hsec with h | h | h | h <;> subst h
    · rw [hv] at hvt; injection hvt with hvv; subst hvv
      rw [hr1] at hefail; simp at hefail
    · rw [hv] at hvp; injection hvp with hvv; subst hvv
      rw [hr2] at hefail; simp at hefail
    · rw [hv] at hvr; injection hvr with hvv; subst hvv
      rw [hr3] at hefail; simp at hefail
    · rw [hv] at hvrt; injection hvrt with hvv; subst hvv
      rw [hr4] at hefail; simp at hefail

/--
Claim C5: in every state a successful initialization returns, for each of
the four capability sections the data field is present iff the companion
URL field is present iff the stored manifest declares that capability
truthy.
-/
theorem capability_state_invariant (client : HttpClient) (config : ServerConfig)
    (st : ServerState) (hok : (initializeServerState client config).snd = .ok st) :
    ∃ m, st.manifest = some m
      ∧ (∃ vt, jsMemberE m "tools" = .ok vt
          ∧ (st.tools.isSome = st.toolsUrl.isSome)
          ∧ (st.toolsUrl.isSome = jsTruthyOpt vt))
      ∧ (∃ vp, jsMemberE m "prompts" = .ok vp
          ∧ (st.prompts.isSome = st.promptsUrl.isSome)
          ∧ (st.promptsUrl.isSome = jsTruthyOpt vp))
      ∧ (∃ vr, jsMemberE m "resources" = .ok vr
          ∧ (st.resources.isSome = st.resourcesUrl.isSome)
          ∧ (st.resourcesUrl.isSome = jsTruthyOpt vr))
      ∧ (∃ vrt, jsMemberE m "resourceTemplates" = .ok vrt
          ∧ (st.resourceTemplates.isSome = st.resourceTemplatesUrl.isSome)
          ∧ (st.resourceTemplatesUrl.isSome = jsTruthyOpt vrt)) := by
  obtain ⟨mres, m, vt, vp, vr, vrt, s1, s2, s3, s4, hm, hmok, hj, hvt, hvp, hvr, hvrt,
    hr1, hr2, hr3, hr4, hst⟩ := initializeServerState_ok_inv client config st hok
  subst hst
  refine ⟨m, rfl, ⟨vt, hvt, ?_, ?_⟩, ⟨vp, hvp, ?_, ?_⟩, ⟨vr, hvr, ?_, ?_⟩, ⟨vrt, hvrt, ?_, ?_⟩⟩
  · cases s1 <;> rfl
  · have := fetchManifestSection_ok_shape client config.baseUrl config.headers "tools" vt s1 hr1
    cases s1 <;> simpa using this
  · cases s2 <;> rfl
  · have := fetchManifestSection_ok_shape client config.baseUrl config.headers "prompts" vp s2 hr2
    cases s2 <;> simpa using this
  · cases s3 <;> rfl
  · have := fetchManifestSection_ok_shape client config.baseUrl config.headers
      "resources" vr s3 hr3
    cases s3 <;> simpa using this
  · cases s4 <;> rfl
  · have := fetchManifestSection_ok_shape client config.baseUrl config.headers
      "resourceTemplates" vrt s4 hr4
    cases s4 <;> simpa using this

/--
Claim C1 evidence: initialization with headers `h` sends the manifest and
section fetches with `h`, and returns a state that carries `h` only under
its `config` field while its top-level `headers` property — the one every
dispatcher reads — is absent; consequently the POST issued by
`mcpCallTool` on that very state carries no headers at all, not `h`.
-/
theorem initialize_drops_headers_for_dispatchers :
    (initializeServerState sClient sConfig).fst
        = [Request.get "http://h" (some sHeaders),
           Request.get "http://h/tools" (some sHeaders)]
    ∧ (initializeServerState sClient sConfig).snd = .ok sState
    ∧ sState.config = some sConfig
    ∧ sConfig.headers = some sHeaders
    ∧ sState.headers = none
    ∧ (mcpCallTool sClient sState "t1" (.jobj [])).fst
        = [Request.post "http://h/tools/t1" (.jobj []) none]
    ∧ (none : Option Headers) ≠ some sHeaders := by
  exact ⟨rfl, rfl, rfl, rfl, rfl, rfl, by simp⟩

/-- Witness: with the tools section answering 500, initialization fails. -/
theorem initialize_all_or_nothing_witness :
    ∃ e, (initializeServerState w4client w4config).snd = .error e :=
  initialize_all_or_nothing w4client w4config (jsonOkResponse sManifest) rfl rfl
    sManifest rfl "tools" (Or.inl rfl) (some (.jbool true)) rfl rfl (by rfl)

/-- Witness: the section-presence invariant on the concrete state the
fixture initialization returns. -/
theorem capability_state_invariant_witness :
    ∃ m, sState.manifest = some m
      ∧ (∃ vt, jsMemberE m "tools" = .ok vt
          ∧ (sState.tools.isSome = sState.toolsUrl.isSome)
          ∧ (sState.toolsUrl.isSome = jsTruthyOpt vt))
      ∧ (∃ vp, jsMemberE m "prompts" = .ok vp
          ∧ (sState.prompts.isSome = sState.promptsUrl.isSome)
          ∧ (sState.promptsUrl.isSome = jsTruthyOpt vp))
      ∧ (∃ vr, jsMemberE m "resources" = .ok vr
          ∧ (sState.resources.isSome = sState.resourcesUrl.isSome)
          ∧ (sState.resourcesUrl.isSome = jsTruthyOpt vr))
      ∧ (∃ vrt, jsMemberE m "resourceTemplates" = .ok vrt
          ∧ (sState.resourceTemplates.isSome = sState.resourceTemplatesUrl.isSome)
          ∧ (sState.resourceTemplatesUrl.isSome = jsTruthyOpt vrt)) :=
  capability_state_invariant sClient sConfig sState rfl

end SSMCP
